import Mathlib

/-
  Verification development for the control-plane elastic-IP reconciler of
  cloud-provider-equinix-metal (src/packet/eip_controlplane_reconciliation.go).

  The source file holds two variants of the same design: an older variant
  (package packet, file lines 1-254) and the current variant (package metal,
  file lines 255-629).  Both are embedded below: the metal variant as
  reconcileNodes / reassign / reconcileServices, the packet variant as
  packetReconcileNodes / packetReassign.

  External collaborators (HTTP client, cloud API, instance lookups) are
  modelled as an explicit environment Env; every external call the code makes is
  recorded in an event trace so that claims about which calls happen, and in
  which order, are statements about that trace.
-/

namespace EIP

instance instDecEqExcept {ε α : Type} [DecidableEq ε] [DecidableEq α] :
    DecidableEq (Except ε α) := fun a b =>
  match a, b with
  | .ok x, .ok y =>
    if h : x = y then isTrue (by rw [h]) else isFalse (by intro hc; cases hc; exact h rfl)
  | .error x, .error y =>
    if h : x = y then isTrue (by rw [h]) else isFalse (by intro hc; cases hc; exact h rfl)
  | .ok _, .error _ => isFalse (by intro hc; cases hc)
  | .error _, .ok _ => isFalse (by intro hc; cases hc)

/-- A typed node address, mirroring v1.NodeAddress (Type, Address). -/
structure Address where
  type_ : String
  address : String
deriving DecidableEq

/-- A cluster node: name plus label map, mirroring the fields of v1.Node that
the source reads (Name, Labels). -/
structure Node where
  name : String
  labels : List (String × String)
deriving DecidableEq

/-- One assignment of a floating IP to a device, mirroring
packngo.IPAddressReservation.Assignments elements (only the ID is read). -/
structure Assignment where
  id : String
deriving DecidableEq

/-- A floating-IP reservation, mirroring the fields of
packngo.IPAddressReservation the source reads: ID, Address, Tags, Assignments. -/
structure Reservation where
  id : String
  address : String
  tags : List String
  assignments : List Assignment
deriving DecidableEq

/-- One service port, mirroring the fields of v1.ServicePort the source reads
and writes: Port and TargetPort.IntVal. -/
structure ServicePort where
  name : String
  port : Int
  targetPort : Int
deriving DecidableEq

/-- The service spec fields the source reads or writes, plus clusterIP as a
representative field the source never touches. -/
structure ServiceSpecT where
  type_ : String
  loadBalancerIP : String
  ports : List ServicePort
  externalIPs : List String
  clusterIP : String
deriving DecidableEq

/-- Load-balancer status: the list of ingress IPs. -/
structure ServiceStatusT where
  ingressIPs : List String
deriving DecidableEq

/-- An orchestrator service object: identity, metadata maps, spec, status. -/
structure ServiceT where
  ns : String
  name : String
  labels : List (String × String)
  annotations : List (String × String)
  spec : ServiceSpecT
  status : ServiceStatusT
deriving DecidableEq

/-- An orchestrator endpoints object; subsets are opaque tokens since the
source only deep-copies them verbatim. -/
structure EndpointsT where
  ns : String
  name : String
  subsets : List String
deriving DecidableEq

/-- The orchestrator object store visible to the reconciler.  A Get error of
the source is modelled as the object being absent; writes (create, update,
status update) are modelled as succeeding against this store. -/
structure K8s where
  services : List ServiceT
  endpoints : List EndpointsT
deriving DecidableEq

/-- The manager state (controlPlaneEndpointManager struct fields that the
reconcilers read or write).  The packet variant has a single apiServerPort;
for it nodeAPIServerPort is simply unused. -/
structure Mgr where
  inProcess : Bool
  apiServerPort : Int
  nodeAPIServerPort : Int
  eipTag : String
  projectID : String
deriving DecidableEq

/-- The external world: cloud API, instance lookups and the HTTP client.
listIPs is ipResSvr.List for a project; reqErr models http.NewRequest failing
for a URL; doResp models httpClient.Do (error = transport failure, ok c = a
response with status code c was received; per net/http a received response
always carries a non-nil body). -/
structure Env where
  listIPs : String → Except String (List Reservation)
  reqErr : String → Option String
  doResp : String → Except String Nat
  nodeAddresses : String → Except String (List Address)
  instanceID : String → Except String String
  unassign : String → Option String
  assign : String → String → Option String

/-- Every external call the reconcilers make, in order. -/
inductive Event where
  | listRes : Event
  | probe (url : String) : Event
  | closeBody (url : String) : Event
  | nodeAddrs (node : String) : Event
  | instID (node : String) : Event
  | unassign (assignmentID : String) : Event
  | assign (deviceID : String) (address : String) : Event
  | epGet (ns name : String) : Event
  | epCreate (name : String) : Event
  | epUpdate (name : String) : Event
  | svcGet (name : String) : Event
  | svcCreate (name : String) : Event
  | svcUpdate (name : String) : Event
  | svcUpdateStatus (name : String) : Event
deriving DecidableEq

/-- Mutating calls: cloud unassign/assign and orchestrator create, update and
status-update calls. -/
def Event.isMutation : Event → Bool
  | .unassign _ => true
  | .assign _ _ => true
  | .epCreate _ => true
  | .epUpdate _ => true
  | .svcCreate _ => true
  | .svcUpdate _ => true
  | .svcUpdateStatus _ => true
  | _ => false

/-- Health-probe calls. -/
def Event.isProbe : Event → Bool
  | .probe _ => true
  | _ => false

/-- node-role.kubernetes.io/master, the control-plane role label key. -/
def controlPlaneLabel : String := "node-role.kubernetes.io/master"

def externalServiceName : String := "cloud-provider-equinix-metal-kubernetes-external"

def externalServiceNamespace : String := "kube-system"

def metallbPoolKey : String := "metallb.universe.tf/address-pool"

def metallbDisabledtag : String := "disabled-metallb-do-not-use-any-address-pool"

/-- The health-check URL: fmt.Sprintf with https scheme, address, port and the
healthz path. -/
def healthURL (addr : String) (port : Int) : String :=
  "https://" ++ addr ++ ":" ++ toString port ++ "/healthz"

/-- True iff a Do outcome is a received response with status 200. -/
def respOK : Except String Nat → Bool
  | .ok c => c == 200
  | .error _ => false

/-- The exhaustion error returned when no candidate works. -/
def exhaustErr : String :=
  "ccm didn\x27t find a good candidate for IP allocation. Cluster is unhealthy"

/-- The multi-assignment error. -/
def multiAssignErr (id : String) : String :=
  "the elastic ip " ++ id ++
    " has more than one node assigned to it and this is currently not supported. Fix it manually unassigning devices"

/-- Modelled from the spec: ipReservationByAllTags (and the packet variant
ipReservationByTags) live outside src/; section 4.2 of the spec says the
resolver returns the first reservation whose tag set is a superset of the
required tags. -/
def ipReservationByAllTags (tags : List String) (ips : List Reservation) : Option Reservation :=
  ips.find? (fun r => tags.all (fun t => r.tags.contains t))

/-- The control-plane filter of reconcileNodes: keep nodes whose label map has
the control-plane role key. -/
def isCP (n : Node) : Bool :=
  n.labels.any (fun kv => kv.1 == controlPlaneLabel)

def cpFilter (nodes : List Node) : List Node :=
  nodes.filter isCP

/--
Inner loop of the metal reassign over one node address list.  Returns the
events issued and none when the loop fell through to the next node, or some
result when the source returns from inside the loop.
-/
def tryAddrs (env : Env) (m : Mgr) (ip : Reservation) (eipURL nodeName : String) :
    List Address → List Event × Option (Except String Unit)
  | [] => ([], none)
  | a :: rest =>
    if a.type_ = "Hostname" then tryAddrs env m ip eipURL nodeName rest
    else
      let url := healthURL a.address m.nodeAPIServerPort
      if url = eipURL then tryAddrs env m ip eipURL nodeName rest
      else
        match env.reqErr url with
        | some _ => tryAddrs env m ip eipURL nodeName rest
        | none =>
          match env.doResp url with
          | .error _ =>
            let r := tryAddrs env m ip eipURL nodeName rest
            (.probe url :: r.1, r.2)
          | .ok code =>
            if code = 200 then
              match env.instanceID nodeName with
              | .error e => ([.probe url, .instID nodeName], some (.error e))
              | .ok dev =>
                match ip.assignments with
                | [a0] =>
                  match env.unassign a0.id with
                  | some e =>
                    ([.probe url, .instID nodeName, .unassign a0.id], some (.error e))
                  | none =>
                    match env.assign dev ip.address with
                    | some e =>
                      ([.probe url, .instID nodeName, .unassign a0.id,
                        .assign dev ip.address], some (.error e))
                    | none =>
                      ([.probe url, .instID nodeName, .unassign a0.id,
                        .assign dev ip.address], some (.ok ()))
                | _ =>
                  match env.assign dev ip.address with
                  | some e =>
                    ([.probe url, .instID nodeName, .assign dev ip.address],
                     some (.error e))
                  | none =>
                    ([.probe url, .instID nodeName, .assign dev ip.address],
                     some (.ok ()))
            else
              let r := tryAddrs env m ip eipURL nodeName rest
              (.probe url :: r.1, r.2)

/-- Outer loop of the metal reassign over candidate nodes. -/
def reassignLoop (env : Env) (m : Mgr) (ip : Reservation) (eipURL : String) :
    List Node → Except String Unit × List Event
  | [] => (.error exhaustErr, [])
  | n :: rest =>
    match env.nodeAddresses n.name with
    | .error e => (.error e, [.nodeAddrs n.name])
    | .ok addrs =>
      match tryAddrs env m ip eipURL n.name addrs with
      | (t, some r) => (r, .nodeAddrs n.name :: t)
      | (t, none) =>
        let r := reassignLoop env m ip eipURL rest
        (r.1, .nodeAddrs n.name :: t ++ r.2)

/-- The metal reassign (file lines 393-455). -/
def reassign (env : Env) (m : Mgr) (nodes : List Node) (ip : Reservation) (eipURL : String) :
    Except String Unit × List Event :=
  if m.nodeAPIServerPort = 0 then
    (.error "control plane node apiserver port not yet determined, cannot reassign, will try again on next loop",
     [])
  else reassignLoop env m ip eipURL nodes

/-- Result of the metal reconcileNodes: error outcome, manager state on
return, and the trace of external calls. -/
structure NodesResult where
  res : Except String Unit
  mgr : Mgr
  trace : List Event
deriving DecidableEq

/-- The guarded section of the metal reconcileNodes (everything after the
in-process flag is set, file lines 344-390).  A received response body is
closed by the deferred close at function exit, hence the closeBody event at
the end of the trace on paths where a response was received. -/
def reconcileNodesBody (env : Env) (m : Mgr) (nodes : List Node) :
    Except String Unit × List Event :=
  if m.eipTag = "" then
    (.error "control plane loadbalancer elastic ip tag is empty. Nothing to do", [])
  else
    match env.listIPs m.projectID with
    | .error e => (.error e, [.listRes])
    | .ok l =>
      match ipReservationByAllTags [m.eipTag] l with
      | none => (.ok (), [.listRes])
      | some cpe =>
        if cpe.assignments.length > 1 then
          (.error (multiAssignErr cpe.id), [.listRes])
        else
          let eipURL := healthURL cpe.address m.apiServerPort
          match env.reqErr eipURL with
          | some e => (.error e, [.listRes])
          | none =>
            match env.doResp eipURL with
            | .error _ =>
              let r := reassign env m (cpFilter nodes) cpe eipURL
              (r.1, .listRes :: .probe eipURL :: r.2)
            | .ok code =>
              if code = 200 then
                (.ok (), [.listRes, .probe eipURL, .closeBody eipURL])
              else
                let r := reassign env m (cpFilter nodes) cpe eipURL
                (r.1, .listRes :: .probe eipURL :: (r.2 ++ [.closeBody eipURL]))

/-- The metal reconcileNodes (file lines 330-391): single-flight guard, the
port check, then the guarded body with the deferred guard release. -/
def reconcileNodes (env : Env) (m : Mgr) (nodes : List Node) : NodesResult :=
  if m.inProcess then ⟨.ok (), m, []⟩
  else if m.apiServerPort = 0 then
    ⟨.error "control plane apiserver port not provided or determined, cannot check, will try again on next loop",
     m, []⟩
  else
    let r := reconcileNodesBody env m nodes
    ⟨r.1, {m with inProcess := false}, r.2⟩

/-- Modelled from the spec: UpdateMode and ModeSync are declared outside src/.
Per section 4.5 a full-sync mode expects to find the upstream service and a
partial/incremental mode tolerates its absence. -/
inductive UpdateMode where
  | sync : UpdateMode
  | add : UpdateMode
deriving DecidableEq

/-- Lookup of a service by namespace and name in the object store; an
orchestrator Get error is modelled as the object being absent. -/
def K8s.getSvc (k : K8s) (ns name : String) : Option ServiceT :=
  k.services.find? (fun s => s.ns == ns && s.name == name)

def K8s.getEp (k : K8s) (ns name : String) : Option EndpointsT :=
  k.endpoints.find? (fun e => e.ns == ns && e.name == name)

/-- Update replaces the stored object with the same identity. -/
def K8s.updateSvc (k : K8s) (s : ServiceT) : K8s :=
  {k with services := k.services.map (fun t => if t.ns == s.ns && t.name == s.name then s else t)}

def K8s.createSvc (k : K8s) (s : ServiceT) : K8s :=
  {k with services := k.services ++ [s]}

def K8s.updateEp (k : K8s) (e : EndpointsT) : K8s :=
  {k with endpoints := k.endpoints.map (fun t => if t.ns == e.ns && t.name == e.name then e else t)}

def K8s.createEp (k : K8s) (e : EndpointsT) : K8s :=
  {k with endpoints := k.endpoints ++ [e]}

/-- UpdateStatus persists only the status subresource of the named service. -/
def K8s.setSvcStatus (k : K8s) (ns name : String) (st : ServiceStatusT) : K8s :=
  {k with services :=
    k.services.map (fun t => if t.ns == ns && t.name == name then {t with status := st} else t)}

/-- Result of the metal reconcileServices. -/
structure SvcResult where
  res : Except String Unit
  mgr : Mgr
  store : K8s
  trace : List Event
deriving DecidableEq

/-- The manager state after the matched body records the serving ports (file
lines 513-518): the node-side port is always overwritten with the first
target value; the desired port is adopted only when still zero. -/
def mgrPorts (m : Mgr) (p0 : ServicePort) : Mgr :=
  let m1 : Mgr := {m with nodeAPIServerPort := p0.targetPort}
  if m1.apiServerPort = 0 then {m1 with apiServerPort := m1.nodeAPIServerPort} else m1

/-- The mirrored-service create-or-update and the status publication (file
lines 563-622), shared by the two endpoints branches: ev1 is the event
prefix accumulated so far, k1 the store after the endpoints write. -/
def svcFinish (m2 : Mgr) (k1 : K8s) (eip : String) (p0 : ServicePort)
    (ps : List ServicePort) (ev1 : List Event) :
    Except String Unit × K8s × List Event :=
  let ports : List ServicePort := {p0 with port := m2.apiServerPort} :: ps
  let externalService : ServiceT :=
    { ns := externalServiceNamespace
      name := externalServiceName
      labels := []
      annotations := [(metallbPoolKey, metallbDisabledtag)]
      spec :=
        { type_ := "LoadBalancer"
          loadBalancerIP := eip
          ports := ports
          externalIPs := []
          clusterIP := "" }
      status := ⟨[]⟩ }
  let step : K8s × List Event :=
    match K8s.getSvc k1 externalServiceNamespace externalServiceName with
    | some existing =>
      (K8s.updateSvc k1
        {existing with spec := {existing.spec with loadBalancerIP := eip, ports := ports}},
       ev1 ++ [.svcGet externalServiceName, .svcUpdate externalServiceName])
    | none =>
      (K8s.createSvc k1 externalService,
       ev1 ++ [.svcGet externalServiceName, .svcCreate externalServiceName])
  match K8s.getSvc step.1 externalServiceNamespace externalServiceName with
  | none =>
    (.error ("could not get service " ++ externalServiceName ++ " for status update"),
     step.1, step.2 ++ [.svcGet externalServiceName])
  | some _ =>
    (.ok (),
     K8s.setSvcStatus step.1 externalServiceNamespace externalServiceName ⟨[eip]⟩,
     step.2 ++ [.svcGet externalServiceName, .svcUpdateStatus externalServiceName])

/-- The matched-service body after the port fields are recorded (file lines
520-622); m2 is the manager state after recording, which the rest of the body
only reads.  The epExisted flag of the source selects between the update
branch (the mirrored endpoints object existed) and the create branch. -/
def svcBodyRest (m2 : Mgr) (k : K8s) (eip : String) (svc : ServiceT)
    (p0 : ServicePort) (ps : List ServicePort) :
    Except String Unit × K8s × List Event :=
  match K8s.getEp k svc.ns svc.name with
  | none =>
    (.error ("failed to get endpoints " ++ svc.name), k, [.epGet svc.ns svc.name])
  | some ep =>
    match K8s.getEp k externalServiceNamespace externalServiceName with
    | some myep0 =>
      svcFinish m2 (K8s.updateEp k {myep0 with subsets := ep.subsets}) eip p0 ps
        [.epGet svc.ns svc.name, .epGet externalServiceNamespace externalServiceName,
         .epUpdate externalServiceName]
    | none =>
      svcFinish m2
        (K8s.createEp k ⟨externalServiceNamespace, externalServiceName, ep.subsets⟩) eip p0 ps
        [.epGet svc.ns svc.name, .epGet externalServiceNamespace externalServiceName,
         .epCreate externalServiceName]

/-- Body of the metal reconcileServices loop for the matched default/kubernetes
service (file lines 507-622); every branch of the source body returns. -/
def svcBody (_env : Env) (m : Mgr) (k : K8s) (eip : String) (svc : ServiceT) : SvcResult :=
  match svc.spec.ports with
  | [] => ⟨.error "default/kubernetes service does not have any ports defined", m, k, []⟩
  | p0 :: ps =>
    let m2 : Mgr := mgrPorts m p0
    let r := svcBodyRest m2 k eip svc p0 ps
    ⟨r.1, m2, r.2.1, r.2.2⟩

/-- The service loop of reconcileServices: skip anything that is not
default/kubernetes; on the first match run the body, which always returns. -/
def svcLoop (env : Env) (m : Mgr) (k : K8s) (eip : String) :
    List ServiceT → UpdateMode → SvcResult
  | [], mode =>
    ⟨if mode = UpdateMode.sync then .error "Service default/kubernetes not found" else .ok (),
     m, k, []⟩
  | svc :: rest, mode =>
    if svc.ns == "default" && svc.name == "kubernetes" then svcBody env m k eip svc
    else svcLoop env m k eip rest mode

/-- The metal reconcileServices (file lines 475-629). -/
def reconcileServices (env : Env) (m : Mgr) (k : K8s) (svcs : List ServiceT)
    (mode : UpdateMode) : SvcResult :=
  if m.eipTag = "" then ⟨.error "elastic ip tag is empty. Nothing to do", m, k, []⟩
  else
    match env.listIPs m.projectID with
    | .error e => ⟨.error e, m, k, [.listRes]⟩
    | .ok l =>
      match ipReservationByAllTags [m.eipTag] l with
      | none => ⟨.ok (), m, k, [.listRes]⟩
      | some cpe =>
        if cpe.assignments.length > 1 then
          ⟨.error (multiAssignErr cpe.id), m, k, [.listRes]⟩
        else
          let r := svcLoop env m k cpe.address svcs mode
          ⟨r.res, r.mgr, r.store, .listRes :: r.trace⟩

/-
  The packet variant (file lines 1-254).  Its reassign has no skip of the EIP
  URL and probes node addresses on apiServerPort; its reconcileNodes closes
  the response body with an unguarded deferred close at line 122, which
  dereferences a nil response when the probe had a transport error.  The
  outcome type makes that nil dereference (a Go runtime panic) explicit.
-/

/-- Outcome of the packet reconcileNodes: normal return with nil error, an
error return, or a nil-pointer dereference (runtime panic). -/
inductive POutcome where
  | ok : POutcome
  | err (e : String) : POutcome
  | nilDeref : POutcome
deriving DecidableEq

/-- Inner address loop of the packet reassign (file lines 136-176): no EIP-URL
skip, node URLs built with apiServerPort. -/
def packetTryAddrs (env : Env) (m : Mgr) (ip : Reservation) (nodeName : String) :
    List Address → Option (Except String Unit)
  | [] => none
  | a :: rest =>
    if a.type_ = "Hostname" then packetTryAddrs env m ip nodeName rest
    else
      let url := healthURL a.address m.apiServerPort
      match env.reqErr url with
      | some _ => packetTryAddrs env m ip nodeName rest
      | none =>
        match env.doResp url with
        | .error _ => packetTryAddrs env m ip nodeName rest
        | .ok code =>
          if code = 200 then
            match env.instanceID nodeName with
            | .error e => some (.error e)
            | .ok dev =>
              match ip.assignments with
              | [a0] =>
                match env.unassign a0.id with
                | some e => some (.error e)
                | none =>
                  match env.assign dev ip.address with
                  | some e => some (.error e)
                  | none => some (.ok ())
              | _ =>
                match env.assign dev ip.address with
                | some e => some (.error e)
                | none => some (.ok ())
          else packetTryAddrs env m ip nodeName rest

/-- The packet reassign (file lines 126-179). -/
def packetReassign (env : Env) (m : Mgr) (ip : Reservation) :
    List Node → Except String Unit
  | [] => .error exhaustErr
  | n :: rest =>
    match env.nodeAddresses n.name with
    | .error e => .error e
    | .ok addrs =>
      match packetTryAddrs env m ip n.name addrs with
      | some r => r
      | none => packetReassign env m ip rest

/-- The packet reconcileNodes (file lines 71-124).  After the unhealthy branch
completes without an error the source reaches the statement deferring
resp.Body.Close; when the probe failed in transport, resp is nil there and
evaluating resp.Body dereferences a nil pointer. -/
def packetReconcileNodes (env : Env) (m : Mgr) (nodes : List Node) : POutcome :=
  if m.inProcess then .ok
  else if m.eipTag = "" then .err "elastic ip tag is empty. Nothing to do"
  else
    match env.listIPs m.projectID with
    | .error e => .err e
    | .ok l =>
      match ipReservationByAllTags [m.eipTag] l with
      | none => .ok
      | some cpe =>
        if cpe.assignments.length > 1 then .err (multiAssignErr cpe.id)
        else
          let eipURL := healthURL cpe.address m.apiServerPort
          match env.reqErr eipURL with
          | some e => .err e
          | none =>
            match env.doResp eipURL with
            | .error _ =>
              match packetReassign env m cpe (cpFilter nodes) with
              | .error e => .err e
              | .ok _ => .nilDeref
            | .ok code =>
              if code = 200 then .ok
              else
                match packetReassign env m cpe (cpFilter nodes) with
                | .error e => .err e
                | .ok _ => .ok

/-
  Specification-side views of the reassignment walk, used to state the
  failover-order claims: the candidate pairs a faithful walk would probe, in
  visit order, with the Hostname-typed addresses and the EIP URL skipped.
-/

/-- Addresses the environment reports for a node (empty on lookup failure). -/
def addrsOf (env : Env) (n : Node) : List Address :=
  match env.nodeAddresses n.name with
  | .ok l => l
  | .error _ => []

/-- Eligible health-check URLs of one address list, in order: drop
Hostname-typed addresses and any URL equal to the EIP URL. -/
def eligURLs (m : Mgr) (eipURL : String) (addrs : List Address) : List String :=
  addrs.filterMap (fun a =>
    if a.type_ = "Hostname" then none
    else if healthURL a.address m.nodeAPIServerPort = eipURL then none
    else some (healthURL a.address m.nodeAPIServerPort))

/-- Eligible (node name, URL) pairs of one node. -/
def eligOf (env : Env) (m : Mgr) (eipURL : String) (n : Node) : List (String × String) :=
  (eligURLs m eipURL (addrsOf env n)).map (fun u => (n.name, u))

/-- All eligible pairs of a node list, in visit order. -/
def eligPairs (env : Env) (m : Mgr) (eipURL : String) : List Node → List (String × String)
  | [] => []
  | n :: rest => eligOf env m eipURL n ++ eligPairs env m eipURL rest

/-- The mutation calls a successful reassignment issues: an unassign of the
single prior assignment when there is one, then the assign. -/
def mutEvents (ip : Reservation) (dev : String) : List Event :=
  match ip.assignments with
  | [a0] => [.unassign a0.id, .assign dev ip.address]
  | _ => [.assign dev ip.address]

/-- The mutation calls succeed in the environment. -/
def mutOK (env : Env) (ip : Reservation) (dev : String) : Prop :=
  (match ip.assignments with
   | [a0] => env.unassign a0.id = none
   | _ => True) ∧ env.assign dev ip.address = none

/-- The first default/kubernetes entry of the service list. -/
def findKube (svcs : List ServiceT) : Option ServiceT :=
  svcs.find? (fun s => s.ns == "default" && s.name == "kubernetes")

/-
  Concrete scenarios used by the witnesses and the failing-input theorems.
-/

def nodeA : Node := ⟨"node-a", [(controlPlaneLabel, "true")]⟩

def nodeW : Node := ⟨"worker-b", [("kubernetes.io/role", "worker")]⟩

def nodesOne : List Node := [nodeA, nodeW]

def addrHost : Address := ⟨"Hostname", "node-a"⟩

def addrInt : Address := ⟨"InternalIP", "10.0.0.2"⟩

def rsvOne : Reservation := ⟨"res-1", "147.75.1.1", ["cpem-eip"], [⟨"assign-1"⟩]⟩

def rsvMulti : Reservation :=
  ⟨"res-1", "147.75.1.1", ["cpem-eip"], [⟨"assign-1"⟩, ⟨"assign-2"⟩]⟩

def rsvOther : Reservation := ⟨"res-9", "147.75.9.9", ["unrelated"], []⟩

def mgrC0 : Mgr := ⟨false, 443, 6443, "cpem-eip", "proj-1"⟩

/-- The EIP health URL of the concrete scenarios. -/
def eipURL0 : String := healthURL "147.75.1.1" 443

/-- The node health URL of the concrete metal scenarios. -/
def nodeURL0 : String := healthURL "10.0.0.2" 6443

/-- Scenario for the reassignment-order witness: the EIP probe fails in
transport, the node address probe returns 200, the mutations succeed. -/
def envW1 : Env where
  listIPs := fun _ => .ok [rsvOne]
  reqErr := fun _ => none
  doResp := fun u => if u = eipURL0 then .error "connection timed out"
    else if u = nodeURL0 then .ok 200 else .ok 503
  nodeAddresses := fun nm => if nm = "node-a" then .ok [addrHost, addrInt] else .ok []
  instanceID := fun nm => if nm = "node-a" then .ok "dev-a" else .error "no such instance"
  unassign := fun _ => none
  assign := fun _ _ => none

/-- Scenario for the exhaustion witness: every probe is bad. -/
def envW5 : Env where
  listIPs := fun _ => .ok [rsvOne]
  reqErr := fun _ => none
  doResp := fun u => if u = eipURL0 then .error "connection timed out" else .ok 503
  nodeAddresses := fun nm => if nm = "node-a" then .ok [addrHost, addrInt] else .ok []
  instanceID := fun _ => .error "no such instance"
  unassign := fun _ => none
  assign := fun _ _ => none

/-- Scenario for the multi-assignment witness. -/
def envW4 : Env where
  listIPs := fun _ => .ok [rsvMulti]
  reqErr := fun _ => none
  doResp := fun _ => .ok 200
  nodeAddresses := fun _ => .ok []
  instanceID := fun _ => .error "no such instance"
  unassign := fun _ => none
  assign := fun _ _ => none

/-- Scenario for the no-matching-reservation witness. -/
def envW9 : Env where
  listIPs := fun _ => .ok [rsvOther]
  reqErr := fun _ => none
  doResp := fun _ => .ok 200
  nodeAddresses := fun _ => .ok []
  instanceID := fun _ => .error "no such instance"
  unassign := fun _ => none
  assign := fun _ _ => none

/-- Failing input for the packet-variant nil dereference: transport error on
the EIP probe, healthy candidate node, successful reassignment.  The packet
variant probes node addresses on apiServerPort. -/
def envC2 : Env where
  listIPs := fun _ => .ok [rsvOne]
  reqErr := fun _ => none
  doResp := fun u => if u = eipURL0 then .error "connection timed out" else .ok 200
  nodeAddresses := fun nm => if nm = "node-a" then .ok [addrHost, addrInt] else .ok []
  instanceID := fun nm => if nm = "node-a" then .ok "dev-a" else .error "no such instance"
  unassign := fun _ => none
  assign := fun _ _ => none

/-- Failing input for the body-leak theorem: the EIP probe and the node probe
both receive responses (non-200), so the node probe body is received but the
source never closes it inside reassign. -/
def envC3 : Env where
  listIPs := fun _ => .ok [rsvOne]
  reqErr := fun _ => none
  doResp := fun u => if u = eipURL0 then .ok 500 else .ok 503
  nodeAddresses := fun nm => if nm = "node-a" then .ok [addrHost, addrInt] else .ok []
  instanceID := fun _ => .error "no such instance"
  unassign := fun _ => none
  assign := fun _ _ => none

/-- The upstream default/kubernetes service of the service-mirror scenarios. -/
def kubeSvc : ServiceT :=
  { ns := "default"
    name := "kubernetes"
    labels := [("component", "apiserver")]
    annotations := []
    spec :=
      { type_ := "ClusterIP"
        loadBalancerIP := ""
        ports := [⟨"https", 443, 6443⟩]
        externalIPs := []
        clusterIP := "10.96.0.1" }
    status := ⟨[]⟩ }

/-- A pre-existing stored mirrored service carrying fields added out of band. -/
def storedMirror : ServiceT :=
  { ns := externalServiceNamespace
    name := externalServiceName
    labels := [("added-out-of-band", "keep-me")]
    annotations := [(metallbPoolKey, metallbDisabledtag), ("extra", "note")]
    spec :=
      { type_ := "LoadBalancer"
        loadBalancerIP := "147.75.0.9"
        ports := [⟨"https", 6443, 6443⟩]
        externalIPs := ["1.1.1.1"]
        clusterIP := "10.96.7.7" }
    status := ⟨["147.75.0.9"]⟩ }

/-- The upstream endpoints object of the service-mirror scenarios. -/
def kubeEp : EndpointsT := ⟨"default", "kubernetes", ["subset-a", "subset-b"]⟩

/-- Store for the mirrored-service-update witness: upstream objects plus the
pre-existing mirrored service. -/
def storeW7 : K8s := ⟨[kubeSvc, storedMirror], [kubeEp]⟩

/-- Store for the port-adoption witness. -/
def storeW8 : K8s := ⟨[kubeSvc], [kubeEp]⟩

/-- Manager whose desired external port is still unset. -/
def mgrC8 : Mgr := ⟨false, 0, 0, "cpem-eip", "proj-1"⟩

end EIP

namespace EIP

/-
  Helper lemmas.
-/

theorem find?_append_none {α : Type} (p : α → Bool) {l1 : List α} (l2 : List α)
    (h : l1.find? p = none) : (l1 ++ l2).find? p = l2.find? p := by
  induction l1 with
  | nil => rfl
  | cons a l ih =>
    rw [List.cons_append, List.find?_cons] at *
    cases hp : p a with
    | true => simp [hp] at h
    | false =>
      simp only [hp] at h ⊢
      exact ih h

theorem find?_append_some {α : Type} (p : α → Bool) {l1 : List α} (l2 : List α) {x : α}
    (h : l1.find? p = some x) : (l1 ++ l2).find? p = some x := by
  induction l1 with
  | nil => simp at h
  | cons a l ih =>
    rw [List.cons_append, List.find?_cons] at *
    cases hp : p a with
    | true => simpa [hp] using h
    | false =>
      simp only [hp] at h ⊢
      exact ih h

theorem takeWhile_append_all {α : Type} (p : α → Bool) {l1 : List α} (l2 : List α)
    (h : ∀ x ∈ l1, p x = true) : (l1 ++ l2).takeWhile p = l1 ++ l2.takeWhile p := by
  induction l1 with
  | nil => rfl
  | cons a l ih =>
    have ha : p a = true := h a (by simp)
    simp only [List.cons_append, List.takeWhile_cons, ha, if_true]
    rw [ih (fun x hx => h x (by simp [hx]))]

theorem takeWhile_append_stop {α : Type} (p : α → Bool) {l1 : List α} (l2 : List α)
    (h : ∃ x ∈ l1, p x = false) : (l1 ++ l2).takeWhile p = l1.takeWhile p := by
  induction l1 with
  | nil => simp at h
  | cons a l ih =>
    cases hp : p a with
    | false => simp [List.takeWhile_cons, hp]
    | true =>
      obtain ⟨x, hx, hpx⟩ := h
      rcases List.mem_cons.mp hx with heq | hx2
      · rw [heq, hp] at hpx
        cases hpx
      · simp only [List.cons_append, List.takeWhile_cons, hp, if_true]
        rw [ih ⟨x, hx2, hpx⟩]

theorem eligURLs_cons_host (m : Mgr) (eipURL : String) {a : Address} (rest : List Address)
    (h1 : a.type_ = "Hostname") :
    eligURLs m eipURL (a :: rest) = eligURLs m eipURL rest := by
  simp [eligURLs, List.filterMap_cons, h1]

theorem eligURLs_cons_eip (m : Mgr) (eipURL : String) {a : Address} (rest : List Address)
    (h1 : ¬ a.type_ = "Hostname") (h2 : healthURL a.address m.nodeAPIServerPort = eipURL) :
    eligURLs m eipURL (a :: rest) = eligURLs m eipURL rest := by
  simp [eligURLs, List.filterMap_cons, h1, h2]

theorem eligURLs_cons_ok (m : Mgr) (eipURL : String) {a : Address} (rest : List Address)
    (h1 : ¬ a.type_ = "Hostname") (h2 : ¬ healthURL a.address m.nodeAPIServerPort = eipURL) :
    eligURLs m eipURL (a :: rest) =
      healthURL a.address m.nodeAPIServerPort :: eligURLs m eipURL rest := by
  simp [eligURLs, List.filterMap_cons, h1, h2]

/-- The inner address loop falls through (no 200 seen), issues no mutation,
when every eligible address of the node probes unhealthy. -/
theorem tryAddrs_no200 (env : Env) (m : Mgr) (ip : Reservation) (eipURL nodeName : String) :
    ∀ (addrs : List Address),
      (∀ u ∈ eligURLs m eipURL addrs, respOK (env.doResp u) = false) →
      (tryAddrs env m ip eipURL nodeName addrs).2 = none ∧
      (tryAddrs env m ip eipURL nodeName addrs).1.filter Event.isMutation = [] := by
  intro addrs
  induction addrs with
  | nil => intro _; exact ⟨rfl, rfl⟩
  | cons a rest ih =>
    intro h
    unfold tryAddrs
    by_cases h1 : a.type_ = "Hostname"
    · rw [if_pos h1]
      exact ih (by rw [← eligURLs_cons_host m eipURL rest h1]; exact h)
    · rw [if_neg h1]
      dsimp only
      by_cases h2 : healthURL a.address m.nodeAPIServerPort = eipURL
      · rw [if_pos h2]
        exact ih (by rw [← eligURLs_cons_eip m eipURL rest h1 h2]; exact h)
      · rw [if_neg h2]
        have hmem : healthURL a.address m.nodeAPIServerPort ∈ eligURLs m eipURL (a :: rest) := by
          rw [eligURLs_cons_ok m eipURL rest h1 h2]
          exact List.mem_cons_self _ _
        have hrest : ∀ u ∈ eligURLs m eipURL rest, respOK (env.doResp u) = false := by
          intro u hu
          refine h u ?_
          rw [eligURLs_cons_ok m eipURL rest h1 h2]
          exact List.mem_cons_of_mem _ hu
        have hbad := h _ hmem
        obtain ⟨ha, hb⟩ := ih hrest
        cases hq : env.reqErr (healthURL a.address m.nodeAPIServerPort) with
        | some e =>
          dsimp only
          exact ⟨ha, hb⟩
        | none =>
          dsimp only
          cases hr : env.doResp (healthURL a.address m.nodeAPIServerPort) with
          | error e =>
            dsimp only
            refine ⟨ha, ?_⟩
            simp [List.filter_cons, Event.isMutation, hb]
          | ok code =>
            have hcode : ¬ code = 200 := by
              rw [hr] at hbad
              simpa [respOK] using hbad
            dsimp only
            rw [if_neg hcode]
            refine ⟨ha, ?_⟩
            simp [List.filter_cons, Event.isMutation, hb]

/-- The outer loop returns the exhaustion error and no mutation events when
every node address lookup succeeds and no eligible pair probes 200. -/
theorem reassignLoop_no200 (env : Env) (m : Mgr) (ip : Reservation) (eipURL : String) :
    ∀ (nodes : List Node),
      (∀ n ∈ nodes, env.nodeAddresses n.name = .ok (addrsOf env n)) →
      (∀ pr ∈ eligPairs env m eipURL nodes, respOK (env.doResp pr.2) = false) →
      (reassignLoop env m ip eipURL nodes).1 = .error exhaustErr ∧
      (reassignLoop env m ip eipURL nodes).2.filter Event.isMutation = [] := by
  intro nodes
  induction nodes with
  | nil => intro _ _; exact ⟨rfl, rfl⟩
  | cons n rest ih =>
    intro haddr hbad
    have hno : ∀ u ∈ eligURLs m eipURL (addrsOf env n), respOK (env.doResp u) = false := by
      intro u hu
      refine hbad (n.name, u) ?_
      show (n.name, u) ∈ eligOf env m eipURL n ++ eligPairs env m eipURL rest
      exact List.mem_append_left _ (List.mem_map_of_mem _ hu)
    have hrest : ∀ pr ∈ eligPairs env m eipURL rest, respOK (env.doResp pr.2) = false := by
      intro pr hpr
      refine hbad pr ?_
      show pr ∈ eligOf env m eipURL n ++ eligPairs env m eipURL rest
      exact List.mem_append_right _ hpr
    obtain ⟨ha, hb⟩ := tryAddrs_no200 env m ip eipURL n.name (addrsOf env n) hno
    obtain ⟨hc, hd⟩ := ih (fun n2 hn2 => haddr n2 (List.mem_cons_of_mem _ hn2)) hrest
    unfold reassignLoop
    rw [haddr n (List.mem_cons_self n rest)]
    dsimp only
    rw [show tryAddrs env m ip eipURL n.name (addrsOf env n) =
      ((tryAddrs env m ip eipURL n.name (addrsOf env n)).1, none) from by rw [← ha]]
    dsimp only
    refine ⟨hc, ?_⟩
    simp [List.filter_cons, List.filter_append, Event.isMutation, hb, hd]

theorem takeWhile_map_mk (q : String → Bool) (nm : String) :
    ∀ (E : List String),
      (E.map (fun w => (nm, w))).takeWhile (fun pr => q pr.2) =
        (E.takeWhile q).map (fun w => (nm, w)) := by
  intro E
  induction E with
  | nil => rfl
  | cons a E ih => cases hq : q a <;> simp [List.takeWhile_cons, hq, ih]

theorem filter_probe_map (E : List String) :
    (E.map Event.probe).filter Event.isProbe = E.map Event.probe := by
  induction E with
  | nil => rfl
  | cons a E ih => simp [List.filter_cons, Event.isProbe, ih]

theorem filter_mut_map_probe (E : List String) :
    (E.map Event.probe).filter Event.isMutation = [] := by
  induction E with
  | nil => rfl
  | cons a E ih => simp [List.filter_cons, Event.isMutation, ih]

theorem map_probe_eligOf (env : Env) (m : Mgr) (eipURL : String) (n : Node) :
    (eligOf env m eipURL n).map (fun pr => Event.probe pr.2) =
      (eligURLs m eipURL (addrsOf env n)).map Event.probe := by
  unfold eligOf
  rw [List.map_map]
  rfl

theorem mutEvents_filter_probe (ip : Reservation) (dev : String) :
    (mutEvents ip dev).filter Event.isProbe = [] := by
  rcases hA : ip.assignments with _ | ⟨a0, _ | ⟨a1, t⟩⟩ <;>
    simp [mutEvents, hA, Event.isProbe]

theorem mutEvents_filter_mut (ip : Reservation) (dev : String) :
    (mutEvents ip dev).filter Event.isMutation = mutEvents ip dev := by
  rcases hA : ip.assignments with _ | ⟨a0, _ | ⟨a1, t⟩⟩ <;>
    simp [mutEvents, hA, Event.isMutation]

/-- The inner address loop, when every request builds, issues exactly one
probe per eligible address, in order, with no winner. -/
theorem tryAddrs_none_exact (env : Env) (m : Mgr) (ip : Reservation)
    (eipURL nodeName : String) :
    ∀ (addrs : List Address),
      (∀ w ∈ eligURLs m eipURL addrs, env.reqErr w = none) →
      (∀ w ∈ eligURLs m eipURL addrs, respOK (env.doResp w) = false) →
      tryAddrs env m ip eipURL nodeName addrs =
        ((eligURLs m eipURL addrs).map Event.probe, none) := by
  intro addrs
  induction addrs with
  | nil => intro _ _; rfl
  | cons a rest ih =>
    intro hreq hbad
    unfold tryAddrs
    by_cases h1 : a.type_ = "Hostname"
    · rw [if_pos h1, eligURLs_cons_host m eipURL rest h1]
      rw [eligURLs_cons_host m eipURL rest h1] at hreq hbad
      exact ih hreq hbad
    · rw [if_neg h1]
      dsimp only
      by_cases h2 : healthURL a.address m.nodeAPIServerPort = eipURL
      · rw [if_pos h2, eligURLs_cons_eip m eipURL rest h1 h2]
        rw [eligURLs_cons_eip m eipURL rest h1 h2] at hreq hbad
        exact ih hreq hbad
      · rw [if_neg h2, eligURLs_cons_ok m eipURL rest h1 h2]
        rw [eligURLs_cons_ok m eipURL rest h1 h2] at hreq hbad
        have hreq0 := hreq _ (List.mem_cons_self _ _)
        have hbad0 := hbad _ (List.mem_cons_self _ _)
        have hreqR : ∀ w ∈ eligURLs m eipURL rest, env.reqErr w = none :=
          fun w hw => hreq w (List.mem_cons_of_mem _ hw)
        have hbadR : ∀ w ∈ eligURLs m eipURL rest, respOK (env.doResp w) = false :=
          fun w hw => hbad w (List.mem_cons_of_mem _ hw)
        rw [hreq0]
        dsimp only
        cases hr : env.doResp (healthURL a.address m.nodeAPIServerPort) with
        | error e =>
          dsimp only
          rw [ih hreqR hbadR]
          rfl
        | ok code =>
          have hcode : ¬ code = 200 := by
            rw [hr] at hbad0
            simpa [respOK] using hbad0
          dsimp only
          rw [if_neg hcode, ih hreqR hbadR]
          rfl

/-- The inner address loop with a winner: it probes exactly the eligible
prefix up to and including the first 200, resolves the instance, unassigns the
single prior assignment when there is one, assigns, and returns success. -/
theorem tryAddrs_found (env : Env) (m : Mgr) (ip : Reservation)
    (eipURL nodeName dev : String)
    (hinst : env.instanceID nodeName = .ok dev) (hmut : mutOK env ip dev) :
    ∀ (addrs : List Address) (u : String),
      (∀ w ∈ eligURLs m eipURL addrs, env.reqErr w = none) →
      (eligURLs m eipURL addrs).find? (fun w => respOK (env.doResp w)) = some u →
      tryAddrs env m ip eipURL nodeName addrs =
        (((eligURLs m eipURL addrs).takeWhile (fun w => !respOK (env.doResp w))).map Event.probe
           ++ ([Event.probe u, Event.instID nodeName] ++ mutEvents ip dev),
         some (.ok ())) := by
  intro addrs
  induction addrs with
  | nil => intro u _ hfind; simp [eligURLs] at hfind
  | cons a rest ih =>
    intro u hreq hfind
    unfold tryAddrs
    by_cases h1 : a.type_ = "Hostname"
    · rw [if_pos h1, eligURLs_cons_host m eipURL rest h1]
      rw [eligURLs_cons_host m eipURL rest h1] at hreq hfind
      exact ih u hreq hfind
    · rw [if_neg h1]
      dsimp only
      by_cases h2 : healthURL a.address m.nodeAPIServerPort = eipURL
      · rw [if_pos h2, eligURLs_cons_eip m eipURL rest h1 h2]
        rw [eligURLs_cons_eip m eipURL rest h1 h2] at hreq hfind
        exact ih u hreq hfind
      · rw [if_neg h2, eligURLs_cons_ok m eipURL rest h1 h2]
        rw [eligURLs_cons_ok m eipURL rest h1 h2] at hreq hfind
        have hreq0 := hreq _ (List.mem_cons_self _ _)
        have hreqR : ∀ w ∈ eligURLs m eipURL rest, env.reqErr w = none :=
          fun w hw => hreq w (List.mem_cons_of_mem _ hw)
        rw [hreq0]
        dsimp only
        rw [List.find?_cons] at hfind
        cases hp : respOK (env.doResp (healthURL a.address m.nodeAPIServerPort)) with
        | true =>
          simp only [hp] at hfind
          have hu : healthURL a.address m.nodeAPIServerPort = u := by
            simpa using hfind
          subst hu
          cases hr : env.doResp (healthURL a.address m.nodeAPIServerPort) with
          | error e =>
            rw [hr] at hp
            simp [respOK] at hp
          | ok code =>
            have hcode : code = 200 := by
              rw [hr] at hp
              simpa [respOK] using hp
            have hq : (!respOK (env.doResp (healthURL a.address m.nodeAPIServerPort))) = false := by
              rw [hp]
              rfl
            dsimp only
            rw [if_pos hcode, hinst]
            unfold mutOK at hmut
            rcases hA : ip.assignments with _ | ⟨a0, _ | ⟨a1, t⟩⟩ <;>
              rw [hA] at hmut <;> dsimp only at hmut
            · dsimp only
              rw [hmut.2]
              simp [mutEvents, hA, hq, List.takeWhile_cons]
            · dsimp only
              rw [hmut.1]
              dsimp only
              rw [hmut.2]
              simp [mutEvents, hA, hq, List.takeWhile_cons]
            · dsimp only
              rw [hmut.2]
              simp [mutEvents, hA, hq, List.takeWhile_cons]
        | false =>
          simp only [hp] at hfind
          have hq : (!respOK (env.doResp (healthURL a.address m.nodeAPIServerPort))) = true := by
            rw [hp]
            rfl
          cases hr : env.doResp (healthURL a.address m.nodeAPIServerPort) with
          | error e =>
            dsimp only
            rw [ih u hreqR hfind]
            simp [List.takeWhile_cons, hq]
          | ok code =>
            have hcode : ¬ code = 200 := by
              rw [hr] at hp
              simpa [respOK] using hp
            dsimp only
            rw [if_neg hcode, ih u hreqR hfind]
            simp [List.takeWhile_cons, hq]

/-- The outer loop with a winner: success, with a prefix trace holding
exactly the probes of the losing eligible pairs and no mutation, followed by
the winning probe, the instance lookup and the mutation calls. -/
theorem reassignLoop_found (env : Env) (m : Mgr) (ip : Reservation)
    (dev : String) (eipURL : String) (hmut : mutOK env ip dev) :
    ∀ (nodes : List Node) (nm u : String),
      env.instanceID nm = .ok dev →
      (∀ n ∈ nodes, env.nodeAddresses n.name = .ok (addrsOf env n)) →
      (∀ pr ∈ eligPairs env m eipURL nodes, env.reqErr pr.2 = none) →
      (eligPairs env m eipURL nodes).find? (fun pr => respOK (env.doResp pr.2)) =
        some (nm, u) →
      ∃ tpre : List Event,
        reassignLoop env m ip eipURL nodes =
          (.ok (), tpre ++ ([Event.probe u, Event.instID nm] ++ mutEvents ip dev)) ∧
        tpre.filter Event.isProbe =
          ((eligPairs env m eipURL nodes).takeWhile
              (fun pr => !respOK (env.doResp pr.2))).map (fun pr => Event.probe pr.2) ∧
        tpre.filter Event.isMutation = [] := by
  intro nodes
  induction nodes with
  | nil => intro nm u _ _ _ hfind; simp [eligPairs] at hfind
  | cons n rest ih =>
    intro nm u hinst haddr hreq hfind
    have hpairs : eligPairs env m eipURL (n :: rest) =
        eligOf env m eipURL n ++ eligPairs env m eipURL rest := rfl
    have hreqN : ∀ w ∈ eligURLs m eipURL (addrsOf env n), env.reqErr w = none := by
      intro w hw
      refine hreq (n.name, w) ?_
      rw [hpairs]
      exact List.mem_append_left _ (List.mem_map_of_mem _ hw)
    have hreqR : ∀ pr ∈ eligPairs env m eipURL rest, env.reqErr pr.2 = none := by
      intro pr hpr
      refine hreq pr ?_
      rw [hpairs]
      exact List.mem_append_right _ hpr
    have haddrR : ∀ n2 ∈ rest, env.nodeAddresses n2.name = .ok (addrsOf env n2) :=
      fun n2 hn2 => haddr n2 (List.mem_cons_of_mem _ hn2)
    have hfp : (eligOf env m eipURL n).find? (fun pr => respOK (env.doResp pr.2)) =
        ((eligURLs m eipURL (addrsOf env n)).find?
          (fun w => respOK (env.doResp w))).map (fun w => (n.name, w)) := by
      unfold eligOf
      rw [List.find?_map]
      rfl
    rw [hpairs] at hfind
    cases hfn : (eligURLs m eipURL (addrsOf env n)).find? (fun w => respOK (env.doResp w)) with
    | none =>
      have hfpn : (eligOf env m eipURL n).find? (fun pr => respOK (env.doResp pr.2)) = none := by
        rw [hfp, hfn]
        rfl
      rw [find?_append_none _ _ hfpn] at hfind
      have hbadN : ∀ w ∈ eligURLs m eipURL (addrsOf env n), respOK (env.doResp w) = false := by
        intro w hw
        have := List.find?_eq_none.mp hfn w hw
        simpa using this
      obtain ⟨tpre, h1, h2, h3⟩ := ih nm u hinst haddrR hreqR hfind
      have htry := tryAddrs_none_exact env m ip eipURL n.name (addrsOf env n) hreqN hbadN
      refine ⟨Event.nodeAddrs n.name ::
        (eligURLs m eipURL (addrsOf env n)).map Event.probe ++ tpre, ?_, ?_, ?_⟩
      · unfold reassignLoop
        rw [haddr n (List.mem_cons_self n rest)]
        dsimp only
        rw [htry]
        dsimp only
        rw [h1]
        simp [List.append_assoc]
      · have hT : (eligPairs env m eipURL (n :: rest)).takeWhile
            (fun pr => !respOK (env.doResp pr.2)) =
            eligOf env m eipURL n ++ (eligPairs env m eipURL rest).takeWhile
              (fun pr => !respOK (env.doResp pr.2)) := by
          rw [hpairs]
          refine takeWhile_append_all _ _ ?_
          intro pr hpr
          obtain ⟨w, hw, hwe⟩ := List.mem_map.mp hpr
          rw [← hwe]
          simp [hbadN w hw]
        rw [hT]
        rw [List.map_append, map_probe_eligOf]
        simp [List.filter_cons, List.filter_append, Event.isProbe, h2, filter_probe_map]
      · simp [List.filter_cons, List.filter_append, Event.isMutation, h3, filter_mut_map_probe]
    | some w =>
      have hfps : (eligOf env m eipURL n).find? (fun pr => respOK (env.doResp pr.2)) =
          some (n.name, w) := by
        rw [hfp, hfn]
        rfl
      have hglobal := find?_append_some _ (eligPairs env m eipURL rest) hfps
      rw [hglobal] at hfind
      have hnmu : n.name = nm ∧ w = u := by simpa using hfind
      obtain ⟨hnm, hwu⟩ := hnmu
      subst hnm
      subst hwu
      have htry := tryAddrs_found env m ip eipURL n.name dev hinst hmut
        (addrsOf env n) w hreqN hfn
      refine ⟨Event.nodeAddrs n.name ::
        ((eligURLs m eipURL (addrsOf env n)).takeWhile
          (fun v => !respOK (env.doResp v))).map Event.probe, ?_, ?_, ?_⟩
      · unfold reassignLoop
        rw [haddr n (List.mem_cons_self n rest)]
        dsimp only
        rw [htry]
        simp [List.append_assoc]
      · have hq : (fun pr : String × String => !respOK (env.doResp pr.2)) (n.name, w) = false := by
          have := List.find?_some hfn
          simp [this]
        have hT : (eligPairs env m eipURL (n :: rest)).takeWhile
            (fun pr => !respOK (env.doResp pr.2)) =
            (eligOf env m eipURL n).takeWhile (fun pr => !respOK (env.doResp pr.2)) := by
          rw [hpairs]
          refine takeWhile_append_stop _ _ ?_
          exact ⟨(n.name, w), List.mem_of_find?_eq_some hfps, hq⟩
        rw [hT]
        rw [show (eligOf env m eipURL n).takeWhile (fun pr => !respOK (env.doResp pr.2)) =
            ((eligURLs m eipURL (addrsOf env n)).takeWhile
              (fun v => !respOK (env.doResp v))).map (fun v => (n.name, v)) from by
          unfold eligOf
          exact takeWhile_map_mk (fun v => !respOK (env.doResp v)) n.name
            (eligURLs m eipURL (addrsOf env n))]
        rw [List.map_map]
        simp [List.filter_cons, Event.isProbe, filter_probe_map]
      · simp [List.filter_cons, Event.isMutation, filter_mut_map_probe]

/-
  Claim theorems.
-/

/-- C5: when the node port is known, all address lookups succeed and no
eligible node/address pair probes 200, reassign issues no unassign and no
assign call (nor any other mutation) and returns the exhaustion error. -/
theorem c5_exhaustion_no_mutation
    (env : Env) (m : Mgr) (nodes : List Node) (ip : Reservation) (eipURL : String)
    (hnport : ¬ m.nodeAPIServerPort = 0)
    (haddr : ∀ n ∈ nodes, env.nodeAddresses n.name = .ok (addrsOf env n))
    (hbad : ∀ pr ∈ eligPairs env m eipURL nodes, respOK (env.doResp pr.2) = false) :
    (reassign env m nodes ip eipURL).1 = .error exhaustErr ∧
    (reassign env m nodes ip eipURL).2.filter Event.isMutation = [] := by
  unfold reassign
  rw [if_neg hnport]
  exact reassignLoop_no200 env m ip eipURL nodes haddr hbad

/-- Witness for C5: a single candidate whose only eligible address returns
503. -/
theorem c5_exhaustion_no_mutation_witness :
    (reassign envW5 mgrC0 [nodeA] rsvOne eipURL0).1 = .error exhaustErr ∧
    (reassign envW5 mgrC0 [nodeA] rsvOne eipURL0).2.filter Event.isMutation = [] :=
  c5_exhaustion_no_mutation envW5 mgrC0 [nodeA] rsvOne eipURL0
    (by decide) (by decide) (by decide)

/-- C6: when reconcileNodes is invoked while the in-process guard flag is set,
it returns immediately with a nil error, makes no external calls, and leaves
the manager state unchanged. -/
theorem c6_single_flight_skip (env : Env) (m : Mgr) (nodes : List Node)
    (h : m.inProcess = true) :
    reconcileNodes env m nodes = ⟨.ok (), m, []⟩ := by
  unfold reconcileNodes
  rw [if_pos h]

/-- Witness for C6 at a concrete busy manager. -/
theorem c6_single_flight_skip_witness :
    reconcileNodes envW1 {mgrC0 with inProcess := true} nodesOne =
      ⟨.ok (), {mgrC0 with inProcess := true}, []⟩ :=
  c6_single_flight_skip envW1 {mgrC0 with inProcess := true} nodesOne rfl

/-- C10: every return of reconcileNodes entered with the guard flag clear
leaves the guard flag clear, on the nil, configuration-error, lookup-error and
reassignment paths alike. -/
theorem c10_guard_cleared (env : Env) (m : Mgr) (nodes : List Node)
    (h : m.inProcess = false) :
    (reconcileNodes env m nodes).mgr.inProcess = false := by
  unfold reconcileNodes
  repeat' split
  all_goals simp [h]

/-- Witness for C10 at a concrete idle manager. -/
theorem c10_guard_cleared_witness :
    (reconcileNodes envW1 mgrC0 nodesOne).mgr.inProcess = false :=
  c10_guard_cleared envW1 mgrC0 nodesOne rfl

/-- C1: with an unhealthy EIP probe, reconcileNodes filters to the
control-plane-labeled nodes and reassign walks their eligible addresses in
input order (skipping Hostname-typed addresses and the EIP URL): the probes
issued are exactly the EIP probe followed by the eligible pairs up to and
including the first one answering 200; the only mutations are the assignment
to that pair (preceded, exactly when the reservation had one prior
assignment, by exactly one immediately preceding unassign). -/
theorem c1_reassign_first_healthy
    (env : Env) (m : Mgr) (nodes : List Node) (l : List Reservation)
    (cpe : Reservation) (nm u dev : String)
    (hguard : m.inProcess = false)
    (hport : ¬ m.apiServerPort = 0)
    (hnport : ¬ m.nodeAPIServerPort = 0)
    (htag : ¬ m.eipTag = "")
    (hlist : env.listIPs m.projectID = .ok l)
    (hres : ipReservationByAllTags [m.eipTag] l = some cpe)
    (hassign : cpe.assignments.length ≤ 1)
    (hreqEip : env.reqErr (healthURL cpe.address m.apiServerPort) = none)
    (hunhealthy : respOK (env.doResp (healthURL cpe.address m.apiServerPort)) = false)
    (haddr : ∀ n ∈ cpFilter nodes, env.nodeAddresses n.name = .ok (addrsOf env n))
    (hreq : ∀ pr ∈ eligPairs env m (healthURL cpe.address m.apiServerPort) (cpFilter nodes),
      env.reqErr pr.2 = none)
    (hfind : (eligPairs env m (healthURL cpe.address m.apiServerPort) (cpFilter nodes)).find?
        (fun pr => respOK (env.doResp pr.2)) = some (nm, u))
    (hinst : env.instanceID nm = .ok dev)
    (hmut : mutOK env cpe dev) :
    (reconcileNodes env m nodes).res = .ok () ∧
    (reconcileNodes env m nodes).trace.filter Event.isProbe =
      Event.probe (healthURL cpe.address m.apiServerPort) ::
        (((eligPairs env m (healthURL cpe.address m.apiServerPort) (cpFilter nodes)).takeWhile
            (fun pr => !respOK (env.doResp pr.2))).map (fun pr => Event.probe pr.2)
          ++ [Event.probe u]) ∧
    (reconcileNodes env m nodes).trace.filter Event.isMutation = mutEvents cpe dev ∧
    (∀ a0, cpe.assignments = [a0] →
      ∃ t1 t2, (reconcileNodes env m nodes).trace =
        t1 ++ [Event.unassign a0.id, Event.assign dev cpe.address] ++ t2) := by
  obtain ⟨tpre, h1, h2, h3⟩ :=
    reassignLoop_found env m cpe dev (healthURL cpe.address m.apiServerPort) hmut
      (cpFilter nodes) nm u hinst haddr hreq hfind
  have hloop : reassign env m (cpFilter nodes) cpe (healthURL cpe.address m.apiServerPort) =
      (.ok (), tpre ++ ([Event.probe u, Event.instID nm] ++ mutEvents cpe dev)) := by
    unfold reassign
    rw [if_neg hnport]
    exact h1
  have hle : ¬ cpe.assignments.length > 1 := by omega
  have hbody : ∃ tail : List Event,
      (reconcileNodes env m nodes =
        ⟨.ok (), {m with inProcess := false},
         .listRes :: .probe (healthURL cpe.address m.apiServerPort) ::
           ((tpre ++ ([Event.probe u, Event.instID nm] ++ mutEvents cpe dev)) ++ tail)⟩) ∧
      tail.filter Event.isProbe = [] ∧ tail.filter Event.isMutation = [] := by
    unfold reconcileNodes reconcileNodesBody
    rw [if_neg (by simp [hguard]), if_neg hport, if_neg htag, hlist]
    dsimp only
    rw [hres]
    dsimp only
    rw [if_neg hle, hreqEip]
    dsimp only
    cases hdo : env.doResp (healthURL cpe.address m.apiServerPort) with
    | error e =>
      dsimp only
      rw [hloop]
      exact ⟨[], by simp, rfl, rfl⟩
    | ok code =>
      have hcode : ¬ code = 200 := by
        rw [hdo] at hunhealthy
        simpa [respOK] using hunhealthy
      dsimp only
      rw [if_neg hcode, hloop]
      exact ⟨[Event.closeBody (healthURL cpe.address m.apiServerPort)], by simp, rfl, rfl⟩
  obtain ⟨tail, hB, hBp, hBm⟩ := hbody
  rw [hB]
  refine ⟨rfl, ?_, ?_, ?_⟩
  · simp [List.filter_cons, List.filter_append, Event.isProbe, h2, hBp,
      mutEvents_filter_probe]
  · simp [List.filter_cons, List.filter_append, Event.isMutation, h3, hBm,
      mutEvents_filter_mut]
  · intro a0 hA
    refine ⟨Event.listRes :: Event.probe (healthURL cpe.address m.apiServerPort) ::
      (tpre ++ [Event.probe u, Event.instID nm]), tail, ?_⟩
    simp [mutEvents, hA, List.append_assoc]

/-- Witness for C1: the EIP probe fails in transport, node-a has a Hostname
address (skipped) and an internal address probing 200; the single prior
assignment is unassigned and the address assigned to device dev-a. -/
theorem c1_reassign_first_healthy_witness :
    (reconcileNodes envW1 mgrC0 nodesOne).res = .ok () ∧
    (reconcileNodes envW1 mgrC0 nodesOne).trace.filter Event.isProbe =
      Event.probe (healthURL rsvOne.address mgrC0.apiServerPort) ::
        (((eligPairs envW1 mgrC0 (healthURL rsvOne.address mgrC0.apiServerPort)
            (cpFilter nodesOne)).takeWhile
            (fun pr => !respOK (envW1.doResp pr.2))).map (fun pr => Event.probe pr.2)
          ++ [Event.probe nodeURL0]) ∧
    (reconcileNodes envW1 mgrC0 nodesOne).trace.filter Event.isMutation =
      mutEvents rsvOne "dev-a" ∧
    (∃ t1 t2, (reconcileNodes envW1 mgrC0 nodesOne).trace =
      t1 ++ [Event.unassign "assign-1", Event.assign "dev-a" rsvOne.address] ++ t2) := by
  have C := c1_reassign_first_healthy envW1 mgrC0 nodesOne [rsvOne] rsvOne
    "node-a" nodeURL0 "dev-a" rfl (by decide) (by decide) (by decide) rfl (by decide)
    (by decide) (by decide) (by decide) (by decide) (by decide) (by decide) rfl
    ⟨rfl, rfl⟩
  exact ⟨C.1, C.2.1, C.2.2.1, C.2.2.2 ⟨"assign-1"⟩ rfl⟩

/-- C2 failing input: in the packet variant, a transport error on the EIP
probe followed by a successful reassignment reaches the deferred
resp.Body.Close with a nil response, a nil-pointer dereference (runtime
panic) instead of an error return. -/
theorem c2_packet_nil_deref :
    packetReconcileNodes envC2 mgrC0 nodesOne = POutcome.nilDeref := by
  rfl

/-- C3 failing input: the node probe at nodeURL0 receives a response (status
503), yet no close of that body ever appears in the trace; reassign never
releases probe response bodies. -/
theorem c3_reassign_body_not_closed :
    (reconcileNodes envC3 mgrC0 nodesOne).trace =
      [Event.listRes, Event.probe eipURL0, Event.nodeAddrs "node-a",
       Event.probe nodeURL0, Event.closeBody eipURL0] ∧
    envC3.doResp nodeURL0 = .ok 503 ∧
    Event.closeBody nodeURL0 ∉ (reconcileNodes envC3 mgrC0 nodesOne).trace := by
  refine ⟨rfl, by decide, by decide⟩

/-- C4: a resolved reservation with two or more assignments makes both
reconcilers return the multi-assignment error having issued only the
reservation listing: no probe, no cloud mutation, no orchestrator write, and
the manager and store unchanged. -/
theorem c4_multi_assignment_no_mutations
    (env : Env) (m : Mgr) (k : K8s) (nodes : List Node) (svcs : List ServiceT)
    (mode : UpdateMode) (l : List Reservation) (cpe : Reservation)
    (hguard : m.inProcess = false)
    (hport : m.apiServerPort ≠ 0)
    (htag : m.eipTag ≠ "")
    (hlist : env.listIPs m.projectID = .ok l)
    (hres : ipReservationByAllTags [m.eipTag] l = some cpe)
    (hmulti : 2 ≤ cpe.assignments.length) :
    (reconcileNodes env m nodes).res = .error (multiAssignErr cpe.id) ∧
    (reconcileNodes env m nodes).trace = [Event.listRes] ∧
    (reconcileServices env m k svcs mode).res = .error (multiAssignErr cpe.id) ∧
    (reconcileServices env m k svcs mode).mgr = m ∧
    (reconcileServices env m k svcs mode).store = k ∧
    (reconcileServices env m k svcs mode).trace = [Event.listRes] := by
  have hgt : cpe.assignments.length > 1 := hmulti
  unfold reconcileNodes reconcileNodesBody reconcileServices
  rw [hlist]
  simp [hguard, hport, htag, hres, hgt]

/-- Witness for C4 at a concrete doubly-assigned reservation. -/
theorem c4_multi_assignment_no_mutations_witness :
    (reconcileNodes envW4 mgrC0 nodesOne).res = .error (multiAssignErr rsvMulti.id) ∧
    (reconcileNodes envW4 mgrC0 nodesOne).trace = [Event.listRes] ∧
    (reconcileServices envW4 mgrC0 ⟨[], []⟩ [kubeSvc] UpdateMode.sync).res =
      .error (multiAssignErr rsvMulti.id) ∧
    (reconcileServices envW4 mgrC0 ⟨[], []⟩ [kubeSvc] UpdateMode.sync).mgr = mgrC0 ∧
    (reconcileServices envW4 mgrC0 ⟨[], []⟩ [kubeSvc] UpdateMode.sync).store = ⟨[], []⟩ ∧
    (reconcileServices envW4 mgrC0 ⟨[], []⟩ [kubeSvc] UpdateMode.sync).trace = [Event.listRes] :=
  c4_multi_assignment_no_mutations envW4 mgrC0 ⟨[], []⟩ nodesOne [kubeSvc]
    UpdateMode.sync [rsvMulti] rsvMulti rfl (by decide) (by decide) rfl (by decide) (by decide)

/-- C9: when the listing succeeds but no reservation carries the configured
tag, both reconcilers return a nil error having issued only the reservation
listing, with the manager and store unchanged. -/
theorem c9_no_matching_reservation
    (env : Env) (m : Mgr) (k : K8s) (nodes : List Node) (svcs : List ServiceT)
    (mode : UpdateMode) (l : List Reservation)
    (hguard : m.inProcess = false)
    (hport : m.apiServerPort ≠ 0)
    (htag : m.eipTag ≠ "")
    (hlist : env.listIPs m.projectID = .ok l)
    (hres : ipReservationByAllTags [m.eipTag] l = none) :
    (reconcileNodes env m nodes).res = .ok () ∧
    (reconcileNodes env m nodes).trace = [Event.listRes] ∧
    (reconcileServices env m k svcs mode).res = .ok () ∧
    (reconcileServices env m k svcs mode).mgr = m ∧
    (reconcileServices env m k svcs mode).store = k ∧
    (reconcileServices env m k svcs mode).trace = [Event.listRes] := by
  unfold reconcileNodes reconcileNodesBody reconcileServices
  rw [hlist]
  simp [hguard, hport, htag, hres]

/-- The service loop runs the body exactly on the first default/kubernetes
entry of the service list. -/
theorem svcLoop_eq_body (env : Env) (m : Mgr) (k : K8s) (eip : String)
    (mode : UpdateMode) {svc : ServiceT} :
    ∀ {svcs : List ServiceT}, findKube svcs = some svc →
      svcLoop env m k eip svcs mode = svcBody env m k eip svc := by
  intro svcs
  induction svcs with
  | nil => intro h; simp [findKube] at h
  | cons s rest ih =>
    intro h
    rw [findKube, List.find?_cons] at h
    cases hp : (s.ns == "default" && s.name == "kubernetes") with
    | true =>
      simp only [hp] at h
      cases h
      simp [svcLoop, hp]
    | false =>
      simp only [hp] at h
      rw [svcLoop, if_neg (by simp [hp])]
      exact ih h

theorem mgrPorts_nodePort (m : Mgr) (p0 : ServicePort) :
    (mgrPorts m p0).nodeAPIServerPort = p0.targetPort := by
  by_cases h : m.apiServerPort = 0 <;> simp [mgrPorts, h]

theorem mgrPorts_apiPort (m : Mgr) (p0 : ServicePort) :
    (mgrPorts m p0).apiServerPort =
      if m.apiServerPort = 0 then p0.targetPort else m.apiServerPort := by
  by_cases h : m.apiServerPort = 0 <;> simp [mgrPorts, h]

theorem getSvc_updateEp (k : K8s) (e : EndpointsT) (ns nm : String) :
    K8s.getSvc (K8s.updateEp k e) ns nm = K8s.getSvc k ns nm := rfl

theorem getSvc_createEp (k : K8s) (e : EndpointsT) (ns nm : String) :
    K8s.getSvc (K8s.createEp k e) ns nm = K8s.getSvc k ns nm := rfl

theorem find?_map_replace (ns nm : String) (s : ServiceT)
    (hns : s.ns = ns) (hnm : s.name = nm) :
    ∀ {L : List ServiceT} {s0 : ServiceT},
      L.find? (fun t => t.ns == ns && t.name == nm) = some s0 →
      (L.map (fun t => if t.ns == s.ns && t.name == s.name then s else t)).find?
        (fun t => t.ns == ns && t.name == nm) = some s := by
  intro L
  induction L with
  | nil => intro s0 h; simp at h
  | cons a L ih =>
    intro s0 h
    rw [List.find?_cons] at h
    cases hp : (a.ns == ns && a.name == nm) with
    | true =>
      obtain ⟨e1, e2⟩ : a.ns = ns ∧ a.name = nm := by
        simpa [Bool.and_eq_true, beq_iff_eq] using hp
      simp [List.find?_cons, e1, e2, hns, hnm]
    | false =>
      have e3 : ¬((a.ns == s.ns && a.name == s.name) = true) := by
        rw [hns, hnm, hp]
        simp
      simp only [hp] at h
      simp only [List.map_cons, List.find?_cons]
      rw [if_neg e3]
      simp only [hp]
      exact ih h

/-- After an update of a service with the looked-up identity, the lookup
returns the updated object. -/
theorem getSvc_updateSvc {k : K8s} {ns nm : String} {s0 : ServiceT} (s : ServiceT)
    (h : K8s.getSvc k ns nm = some s0) (hns : s.ns = ns) (hnm : s.name = nm) :
    K8s.getSvc (K8s.updateSvc k s) ns nm = some s :=
  find?_map_replace ns nm s hns hnm h

theorem find?_map_setStatus (ns nm : String) (st : ServiceStatusT) :
    ∀ (L : List ServiceT),
      (L.map (fun t => if t.ns == ns && t.name == nm then {t with status := st} else t)).find?
        (fun t => t.ns == ns && t.name == nm) =
      (L.find? (fun t => t.ns == ns && t.name == nm)).map (fun t => {t with status := st}) := by
  intro L
  induction L with
  | nil => rfl
  | cons a L ih =>
    cases hp : (a.ns == ns && a.name == nm) with
    | true =>
      obtain ⟨e1, e2⟩ : a.ns = ns ∧ a.name = nm := by
        simpa [Bool.and_eq_true, beq_iff_eq] using hp
      simp [List.find?_cons, e1, e2]
    | false =>
      have e3 : ¬((a.ns == ns && a.name == nm) = true) := by
        rw [hp]
        simp
      simp only [List.map_cons, List.find?_cons]
      rw [if_neg e3]
      simp only [hp]
      exact ih

/-- A status write changes only the status of the stored object. -/
theorem getSvc_setSvcStatus (k : K8s) (ns nm : String) (st : ServiceStatusT) :
    K8s.getSvc (K8s.setSvcStatus k ns nm st) ns nm =
      (K8s.getSvc k ns nm).map (fun t => {t with status := st}) :=
  find?_map_setStatus ns nm st k.services

/-- When a mirrored service with the external identity is already stored, the
finish step updates it in place and publishes the status: the stored object
becomes the old object with only the address, ports and status replaced. -/
theorem svcFinish_update (m2 : Mgr) (k1 : K8s) (eip : String) (p0 : ServicePort)
    (ps : List ServicePort) (ev1 : List Event) (s0 : ServiceT)
    (hs0 : K8s.getSvc k1 externalServiceNamespace externalServiceName = some s0) :
    K8s.getSvc (svcFinish m2 k1 eip p0 ps ev1).2.1
        externalServiceNamespace externalServiceName =
      some { s0 with spec := { s0.spec with loadBalancerIP := eip, ports := {p0 with port := m2.apiServerPort} :: ps }, status := ⟨[eip]⟩ } := by
  have hkey := List.find?_some hs0
  simp only [Bool.and_eq_true, beq_iff_eq] at hkey
  have h2 : K8s.getSvc
      (K8s.updateSvc k1 {s0 with spec := {s0.spec with loadBalancerIP := eip, ports := {p0 with port := m2.apiServerPort} :: ps}})
      externalServiceNamespace externalServiceName =
      some {s0 with spec := {s0.spec with loadBalancerIP := eip, ports := {p0 with port := m2.apiServerPort} :: ps}} :=
    getSvc_updateSvc _ hs0 hkey.1 hkey.2
  unfold svcFinish
  dsimp only
  rw [hs0]
  dsimp only
  rw [h2]
  dsimp only
  rw [getSvc_setSvcStatus, h2]
  rfl

/-- When the upstream endpoints and a stored mirrored service both exist, the
rest of the matched body leaves the stored mirrored service equal to the old
object with only the load-balancer address, the ports and the status
replaced. -/
theorem svcBodyRest_update (m2 : Mgr) (k : K8s) (eip : String) (svc : ServiceT)
    (p0 : ServicePort) (ps : List ServicePort) (ep : EndpointsT) (s0 : ServiceT)
    (hns : svc.ns = "default") (hnm : svc.name = "kubernetes")
    (hep : K8s.getEp k "default" "kubernetes" = some ep)
    (hs0 : K8s.getSvc k externalServiceNamespace externalServiceName = some s0) :
    K8s.getSvc (svcBodyRest m2 k eip svc p0 ps).2.1
        externalServiceNamespace externalServiceName =
      some { s0 with spec := { s0.spec with loadBalancerIP := eip, ports := {p0 with port := m2.apiServerPort} :: ps }, status := ⟨[eip]⟩ } := by
  unfold svcBodyRest
  rw [hns, hnm, hep]
  dsimp only
  cases hmy : K8s.getEp k externalServiceNamespace externalServiceName with
  | some e0 =>
    dsimp only
    exact svcFinish_update m2 _ eip p0 ps _ s0 (by rw [getSvc_updateEp]; exact hs0)
  | none =>
    dsimp only
    exact svcFinish_update m2 _ eip p0 ps _ s0 (by rw [getSvc_createEp]; exact hs0)

/-- C7: updating a pre-existing stored mirrored service overwrites only the
load-balancer external address and the ports list (and, in the separate
status-publishing step, the status); the stored labels, annotations and the
other spec fields keep their prior values. -/
theorem c7_update_preserves_fields
    (env : Env) (m : Mgr) (k : K8s) (svcs : List ServiceT) (mode : UpdateMode)
    (l : List Reservation) (cpe : Reservation) (svc : ServiceT)
    (p0 : ServicePort) (ps : List ServicePort) (s0 : ServiceT) (ep : EndpointsT)
    (htag : m.eipTag ≠ "")
    (hlist : env.listIPs m.projectID = .ok l)
    (hres : ipReservationByAllTags [m.eipTag] l = some cpe)
    (hassign : cpe.assignments.length ≤ 1)
    (hkube : findKube svcs = some svc)
    (hports : svc.spec.ports = p0 :: ps)
    (hep : K8s.getEp k "default" "kubernetes" = some ep)
    (hs0 : K8s.getSvc k externalServiceNamespace externalServiceName = some s0) :
    ∃ s1 : ServiceT,
      K8s.getSvc (reconcileServices env m k svcs mode).store
          externalServiceNamespace externalServiceName = some s1 ∧
      s1.labels = s0.labels ∧
      s1.annotations = s0.annotations ∧
      s1.spec.type_ = s0.spec.type_ ∧
      s1.spec.externalIPs = s0.spec.externalIPs ∧
      s1.spec.clusterIP = s0.spec.clusterIP ∧
      s1.spec.loadBalancerIP = cpe.address ∧
      s1.spec.ports = {p0 with port := (mgrPorts m p0).apiServerPort} :: ps := by
  have hle : ¬ cpe.assignments.length > 1 := by omega
  have hkube' := hkube
  rw [findKube] at hkube'
  have hpred := List.find?_some hkube'
  simp only [Bool.and_eq_true, beq_iff_eq] at hpred
  have hstore : (reconcileServices env m k svcs mode).store =
      (svcBodyRest (mgrPorts m p0) k cpe.address svc p0 ps).2.1 := by
    unfold reconcileServices
    rw [hlist]
    simp only [htag, hres, hle, if_neg, if_false]
    rw [svcLoop_eq_body env m k cpe.address mode hkube]
    unfold svcBody
    rw [hports]
  rw [hstore,
    svcBodyRest_update (mgrPorts m p0) k cpe.address svc p0 ps ep s0
      hpred.1 hpred.2 hep hs0]
  exact ⟨_, rfl, rfl, rfl, rfl, rfl, rfl, rfl, rfl⟩

/-- Witness for C7: a stored mirrored service with out-of-band labels keeps
them; only address, ports and status change. -/
theorem c7_update_preserves_fields_witness :
    ∃ s1 : ServiceT,
      K8s.getSvc (reconcileServices envW1 mgrC0 storeW7 [kubeSvc] UpdateMode.sync).store
          externalServiceNamespace externalServiceName = some s1 ∧
      s1.labels = storedMirror.labels ∧
      s1.annotations = storedMirror.annotations ∧
      s1.spec.type_ = storedMirror.spec.type_ ∧
      s1.spec.externalIPs = storedMirror.spec.externalIPs ∧
      s1.spec.clusterIP = storedMirror.spec.clusterIP ∧
      s1.spec.loadBalancerIP = rsvOne.address ∧
      s1.spec.ports =
        {(⟨"https", 443, 6443⟩ : ServicePort) with
          port := (mgrPorts mgrC0 ⟨"https", 443, 6443⟩).apiServerPort} :: [] :=
  c7_update_preserves_fields envW1 mgrC0 storeW7 [kubeSvc] UpdateMode.sync
    [rsvOne] rsvOne kubeSvc ⟨"https", 443, 6443⟩ [] storedMirror kubeEp
    (by decide) rfl (by decide) (by decide) (by decide) (by decide) (by decide) (by decide)

/-- C8: on every call reaching the default/kubernetes service with a
non-empty port list, reconcileServices sets the node-side serving port to the
first port's target value, and sets the desired external port to that value
only when it is currently zero, never overwriting a non-zero desired port. -/
theorem c8_port_adoption
    (env : Env) (m : Mgr) (k : K8s) (svcs : List ServiceT) (mode : UpdateMode)
    (l : List Reservation) (cpe : Reservation) (svc : ServiceT)
    (p0 : ServicePort) (ps : List ServicePort)
    (htag : m.eipTag ≠ "")
    (hlist : env.listIPs m.projectID = .ok l)
    (hres : ipReservationByAllTags [m.eipTag] l = some cpe)
    (hassign : cpe.assignments.length ≤ 1)
    (hkube : findKube svcs = some svc)
    (hports : svc.spec.ports = p0 :: ps) :
    (reconcileServices env m k svcs mode).mgr.nodeAPIServerPort = p0.targetPort ∧
    (reconcileServices env m k svcs mode).mgr.apiServerPort =
      (if m.apiServerPort = 0 then p0.targetPort else m.apiServerPort) := by
  have hle : ¬ cpe.assignments.length > 1 := by omega
  have hmain : (reconcileServices env m k svcs mode).mgr = mgrPorts m p0 := by
    unfold reconcileServices
    rw [hlist]
    simp only [htag, if_neg, hres, hle, if_false]
    rw [svcLoop_eq_body env m k cpe.address mode hkube]
    unfold svcBody
    rw [hports]
  rw [hmain, mgrPorts_nodePort, mgrPorts_apiPort]
  exact ⟨rfl, rfl⟩

/-- Witness for C8: desired port unset, target port 6443 adopted. -/
theorem c8_port_adoption_witness :
    (reconcileServices envW1 mgrC8 storeW8 [kubeSvc] UpdateMode.sync).mgr.nodeAPIServerPort =
      (6443 : Int) ∧
    (reconcileServices envW1 mgrC8 storeW8 [kubeSvc] UpdateMode.sync).mgr.apiServerPort =
      (if mgrC8.apiServerPort = 0 then (6443 : Int) else mgrC8.apiServerPort) :=
  c8_port_adoption envW1 mgrC8 storeW8 [kubeSvc] UpdateMode.sync [rsvOne] rsvOne
    kubeSvc ⟨"https", 443, 6443⟩ [] (by decide) rfl (by decide) (by decide) (by decide) (by decide)

/-- Witness for C9 at a concrete listing with only an unrelated tag. -/
theorem c9_no_matching_reservation_witness :
    (reconcileNodes envW9 mgrC0 nodesOne).res = .ok () ∧
    (reconcileNodes envW9 mgrC0 nodesOne).trace = [Event.listRes] ∧
    (reconcileServices envW9 mgrC0 ⟨[], []⟩ [kubeSvc] UpdateMode.sync).res = .ok () ∧
    (reconcileServices envW9 mgrC0 ⟨[], []⟩ [kubeSvc] UpdateMode.sync).mgr = mgrC0 ∧
    (reconcileServices envW9 mgrC0 ⟨[], []⟩ [kubeSvc] UpdateMode.sync).store = ⟨[], []⟩ ∧
    (reconcileServices envW9 mgrC0 ⟨[], []⟩ [kubeSvc] UpdateMode.sync).trace = [Event.listRes] :=
  c9_no_matching_reservation envW9 mgrC0 ⟨[], []⟩ nodesOne [kubeSvc]
    UpdateMode.sync [rsvOther] rfl (by decide) (by decide) rfl (by decide)

end EIP
